import Mathlib

/- A formal model of the geoid-globe preprocessing pipeline: polygon-to-boundary
decomposition (clean_world_geojson.py), the longitude reordering step of
generate_geoid.py, raster decimation and statistics (convert_raster_to_json.py),
and the orchestrator with its artifact checks (pipeline.py).  Geometry follows
the shapely/geopandas semantics the source relies on; numeric grid values are
modelled as rationals, with NaN cells modelled as the none value of Option. -/

abbrev Coord : Type := ℚ × ℚ

abbrev GeoRing : Type := List Coord

abbrev Props : Type := List (String × String)

/-- Geometry variants handled by the pipeline (shapely geometry model).  A
polygon carries an exterior ring and a list of interior hole rings; emptyGC
stands for an empty collection geometry such as GEOMETRYCOLLECTION EMPTY or
MULTIPOINT EMPTY. -/
inductive Geometry : Type where
  | polygon (exterior : GeoRing) (holes : List GeoRing)
  | multiPolygon (parts : List (GeoRing × List GeoRing))
  | lineString (coords : GeoRing)
  | multiLineString (lines : List GeoRing)
  | point (p : Coord)
  | multiPoint (ps : List Coord)
  | emptyGC
deriving DecidableEq, Repr

/-- A GeoJSON feature: one geometry plus its non-geometry properties. -/
structure Feature where
  geom : Geometry
  props : Props
deriving DecidableEq, Repr

/-- Semantics of splitting one geometry in
GeoDataFrame.explode(index_parts=True): a multi-part geometry becomes the list
of its parts, a single-part geometry is kept as a singleton, and an empty
collection geometry has no parts, so its row is dropped from the exploded
frame (geopandas explode via shapely get_parts). -/
def explodeGeom : Geometry → List Geometry
  | .polygon e h => [.polygon e h]
  | .multiPolygon ps => ps.map fun q => .polygon q.1 q.2
  | .lineString c => [.lineString c]
  | .multiLineString ls => ls.map .lineString
  | .point p => [.point p]
  | .multiPoint ps => ps.map .point
  | .emptyGC => []

/-- GeoDataFrame.explode(index_parts=True).reset_index(drop=True) over a whole
feature collection: each feature is replaced by one feature per geometry part,
all inheriting the parent properties; the positional list order is the flat
re-numbered index. -/
def explodeFC : List Feature → List Feature
  | [] => []
  | f :: fs => ((explodeGeom f.geom).map fun g => { geom := g, props := f.props }) ++ explodeFC fs

/-- First and last coordinate of a linestring, used by the mod-2 boundary rule. -/
def ringEndpoints (c : GeoRing) : List Coord :=
  match c.head?, c.getLast? with
  | some a, some b => [a, b]
  | _, _ => []

/-- Shapely boundary semantics (the .boundary accessor used by the source): a
polygon without holes yields the exterior ring as a LineString, a polygon with
holes yields a MultiLineString of all rings, a multipolygon yields a
MultiLineString of all rings of all parts, an open linestring yields the
multipoint of its two endpoints, a closed or empty linestring yields an empty
geometry, multilinestrings follow the mod-2 endpoint rule, and points have an
empty boundary. -/
def boundary : Geometry → Geometry
  | .polygon e [] => .lineString e
  | .polygon e (h :: hs) => .multiLineString (e :: h :: hs)
  | .multiPolygon ps => .multiLineString (ps.flatMap fun q => q.1 :: q.2)
  | .lineString c =>
      match c.head?, c.getLast? with
      | some a, some b => if a = b then .emptyGC else .multiPoint [a, b]
      | _, _ => .emptyGC
  | .multiLineString ls =>
      let eps := ls.flatMap ringEndpoints
      match (eps.filter fun p => eps.count p % 2 = 1).dedup with
      | [] => .emptyGC
      | q :: qs => .multiPoint (q :: qs)
  | .point _ => .emptyGC
  | .multiPoint _ => .emptyGC
  | .emptyGC => .emptyGC

/-- Pure geometry core of clean_world_geojson: explode multi-part geometries,
replace each geometry by its boundary, explode again.  Indices are positional
in the list representation, so reset_index(drop=True) is implicit. -/
def clean_world_geojson (fc : List Feature) : List Feature :=
  explodeFC ((explodeFC fc).map fun f => { geom := boundary f.geom, props := f.props })

def isLineString : Geometry → Bool
  | .lineString _ => true
  | _ => false

def isPolygonal : Geometry → Bool
  | .polygon _ _ => true
  | .multiPolygon _ => true
  | _ => false

/-- Ring count of a polygonal geometry: one exterior ring plus one ring per
hole, summed over constituent polygons.  Zero for non-polygonal geometries. -/
def geomRingCount : Geometry → ℕ
  | .polygon _ holes => holes.length + 1
  | .multiPolygon ps => (ps.map fun q => q.2.length + 1).sum
  | _ => 0

/-- The remap np.where(lon_values > 180, lon_values - 360, lon_values) applied
by generate_geoid to the native longitude coordinate. -/
def remapLon (x : ℚ) : ℚ := if 180 < x then x - 360 else x

/-- Longitude reordering step of generate_geoid: each (longitude, data column)
pair of the synthesized grid has its longitude remapped, then the grid is
re-sorted along the longitude coordinate (DataArray.sortby, a stable ascending
sort). -/
def reorder_longitude (cols : List (ℚ × List ℚ)) : List (ℚ × List ℚ) :=
  (cols.map fun c => (remapLon c.1, c.2)).insertionSort fun a b => a.1 ≤ b.1

/-- Every k-th element of a list, k at least 1, starting at index 0, written
with a skip counter so the recursion is structural: the counter says how many
elements remain to be skipped before the next kept element. -/
def strideAux (k : ℕ) : ℕ → List α → List α
  | _, [] => []
  | 0, x :: xs => x :: strideAux k (k - 1) xs
  | c + 1, _ :: xs => strideAux k c xs

/-- Python extended slice a[::k] for a positive step k: every k-th element
starting at index 0. -/
def strideSample (l : List α) (k : ℕ) : List α := strideAux k 0 l

/-- Python extended slice a[::s] for a nonzero integer step s: a positive step
decimates forward from index 0, a negative step decimates the reversed list
starting from the last element. -/
def pyStride (l : List α) (s : ℤ) : List α :=
  if 0 < s then strideSample l s.toNat else strideSample l.reverse (-s).toNat

/-- One step of the nan-aware minimum fold: NaN (none) cells are skipped. -/
def nanminStep (acc x : Option ℚ) : Option ℚ :=
  match acc, x with
  | none, v => v
  | some m, none => some m
  | some m, some v => some (min m v)

/-- One step of the nan-aware maximum fold: NaN (none) cells are skipped. -/
def nanmaxStep (acc x : Option ℚ) : Option ℚ :=
  match acc, x with
  | none, v => v
  | some m, none => some m
  | some m, some v => some (max m v)

/-- Semantics of np.nanmin: the minimum over the non-NaN values of the list,
none when every value is NaN.  NaN cells are modelled as none. -/
def nanmin (l : List (Option ℚ)) : Option ℚ := l.foldl nanminStep none

/-- Semantics of np.nanmax: the maximum over the non-NaN values of the list,
none when every value is NaN. -/
def nanmax (l : List (Option ℚ)) : Option ℚ := l.foldl nanmaxStep none

/-- The height raster read back by geotiff_to_json: band-0 data rows indexed by
the y (latitude) axis, each row indexed by the x (longitude) axis.  NaN cells
are none. -/
structure Raster where
  data : List (List (Option ℚ))
  ys : List ℚ
  xs : List ℚ
deriving DecidableEq, Repr

/-- The JSON object written by geotiff_to_json. -/
structure SampledGrid where
  heights : List (List (Option ℚ))
  lats : List ℚ
  lons : List ℚ
  minHeight : Option ℚ
  maxHeight : Option ℚ
  shape : ℕ × ℕ
deriving DecidableEq, Repr

instance {ε α : Type} [DecidableEq ε] [DecidableEq α] : DecidableEq (Except ε α) := fun x y =>
  match x, y with
  | .error a, .error b =>
    if h : a = b then .isTrue (h ▸ rfl) else .isFalse fun hc => h (Except.error.inj hc)
  | .error _, .ok _ => .isFalse fun hc => Except.noConfusion hc
  | .ok _, .error _ => .isFalse fun hc => Except.noConfusion hc
  | .ok a, .ok b =>
    if h : a = b then .isTrue (h ▸ rfl) else .isFalse fun hc => h (Except.ok.inj hc)

/-- Core of geotiff_to_json: decimate data rows and columns and both coordinate
axes with the same stride (data[::downsample, ::downsample], y[::downsample],
x[::downsample]), compute nan-aware extrema over the decimated values, and
report the decimated array shape.  A zero step makes Python slicing raise a
ValueError before anything is computed; no other stride validation exists in
the source. -/
def geotiff_to_json (r : Raster) (downsample : ℤ) : Except String SampledGrid :=
  if downsample = 0 then .error "ValueError: slice step cannot be zero"
  else
    let data := (pyStride r.data downsample).map fun row => pyStride row downsample
    .ok { heights := data
          lats := pyStride r.ys downsample
          lons := pyStride r.xs downsample
          minHeight := nanmin data.flatten
          maxHeight := nanmax data.flatten
          shape := (data.length, (data.headD []).length) }

/-- Bounds checked by the pydantic Field declarations of PipelineConfig:
lmax has ge=1 and le=2160, downsample has ge=1.  Construction of the
configuration fails before any stage runs when a bound is violated. -/
def validPipelineConfig (lmax downsample : ℤ) : Bool :=
  decide (1 ≤ lmax) && decide (lmax ≤ 2160) && decide (1 ≤ downsample)

/-- Orchestration skeleton of run_pipeline over an abstract file system, the
set of existing paths.  Each stage is an effect on the file system that may
fail; after each stage the source checks that the output artifact of that
stage exists and raises FileNotFoundError otherwise, so later stages never
run. -/
def run_pipeline (gen conv clean : List String → Except String (List String))
    (geotiffPath jsonPath boundariesPath : String)
    (fs : List String) : Except String (List String) :=
  match gen fs with
  | .error e => .error e
  | .ok fs1 =>
    if geotiffPath ∈ fs1 then
      match conv fs1 with
      | .error e => .error e
      | .ok fs2 =>
        if jsonPath ∈ fs2 then
          match clean fs2 with
          | .error e => .error e
          | .ok fs3 =>
            if boundariesPath ∈ fs3 then .ok fs3
            else .error ("World boundaries GeoJSON not found at " ++ boundariesPath)
        else .error ("JSON not found at " ++ jsonPath)
    else .error ("Geoid GeoTIFF not found at " ++ geotiffPath)

/-- Concrete 4 by 4 raster used to instantiate the sampler theorems. -/
def rasterW : Raster :=
  { data := [[some 1, some 2, some 3, some 4],
             [some 5, some 6, some 7, some 8],
             [some 9, none, some 11, some 12],
             [some 13, some 14, some 15, some 16]],
    ys := [90, 30, -30, -90],
    xs := [-180, -90, 0, 90] }

/-- The sampled grid produced from rasterW at stride 2: rows and columns 0 and
2 of the data and axes. -/
def gridW : SampledGrid :=
  { heights := [[some 1, some 3], [some 9, some 11]],
    lats := [90, -30],
    lons := [-180, 0],
    minHeight := some 1,
    maxHeight := some 11,
    shape := (2, 2) }

/-- Concrete one-feature collection holding a square polygon with one square
hole, used to instantiate the decomposition theorems. -/
def holeFC : List Feature :=
  [{ geom := .polygon [(0,0),(4,0),(4,4),(0,4),(0,0)] [[(1,1),(2,1),(2,2),(1,2),(1,1)]],
     props := [("name", "square")] }]

/-- Concrete stage effect creating the geoid artifact, for instantiating the
orchestrator contract. -/
def genW : List String → Except String (List String) := fun s => .ok ("G" :: s)

/-- Concrete stage effect creating the sampled-grid artifact. -/
def convW : List String → Except String (List String) := fun s => .ok ("J" :: s)

/-- Concrete stage effect creating the boundary artifact. -/
def cleanW : List String → Except String (List String) := fun s => .ok ("B" :: s)

instance : IsTotal (ℚ × List ℚ) fun a b => a.1 ≤ b.1 :=
  ⟨fun a b => le_total a.1 b.1⟩

instance : IsTrans (ℚ × List ℚ) fun a b => a.1 ≤ b.1 :=
  ⟨fun _ _ _ h1 h2 => le_trans h1 h2⟩

theorem strideAux_length {α : Type} {k : ℕ} (hk : 1 ≤ k) :
    ∀ (l : List α) (c : ℕ), (strideAux k c l).length = (l.length - c + k - 1) / k := by
  intro l
  induction l with
  | nil =>
    intro c
    simp only [strideAux, List.length_nil, Nat.zero_sub]
    exact (Nat.div_eq_of_lt (by omega)).symm
  | cons x xs ih =>
    intro c
    cases c with
    | zero =>
      simp only [strideAux, List.length_cons, ih (k - 1)]
      rcases Nat.lt_or_ge xs.length (k - 1) with h | h
      · have e1 : xs.length - (k - 1) = 0 := by omega
        have e2 : xs.length + 1 - 0 + k - 1 = xs.length + k := by omega
        rw [e1, e2, Nat.add_div_right _ (by omega),
          Nat.div_eq_of_lt (by omega : xs.length < k),
          Nat.div_eq_of_lt (by omega : 0 + k - 1 < k)]
      · have e1 : xs.length - (k - 1) + k - 1 = xs.length := by omega
        have e2 : xs.length + 1 - 0 + k - 1 = xs.length + k := by omega
        rw [e1, e2, Nat.add_div_right _ (by omega)]
    | succ c =>
      simp only [strideAux, List.length_cons, ih c]
      congr 1
      omega

theorem strideAux_getElem {α : Type} {k : ℕ} (hk : 1 ≤ k) :
    ∀ (l : List α) (c i : ℕ), (strideAux k c l)[i]? = l[c + k * i]? := by
  intro l
  induction l with
  | nil => intro c i; simp [strideAux]
  | cons x xs ih =>
    intro c i
    cases c with
    | zero =>
      cases i with
      | zero => simp [strideAux]
      | succ i =>
        have e : k * (i + 1) = (k - 1 + k * i) + 1 := by
          rw [Nat.mul_succ]; omega
        simp only [strideAux, Nat.zero_add, e, List.getElem?_cons_succ]
        exact ih (k - 1) i
    | succ c =>
      have e : c + 1 + k * i = (c + k * i) + 1 := by omega
      simp only [strideAux, e, List.getElem?_cons_succ]
      exact ih c i

theorem strideAux_mem {α : Type} {k : ℕ} {y : α} :
    ∀ {l : List α} {c : ℕ}, y ∈ strideAux k c l → y ∈ l := by
  intro l
  induction l with
  | nil => intro c h; simp [strideAux] at h
  | cons x xs ih =>
    intro c h
    cases c with
    | zero =>
      simp only [strideAux, List.mem_cons] at h ⊢
      rcases h with h | h
      · exact Or.inl h
      · exact Or.inr (ih h)
    | succ c =>
      simp only [strideAux] at h
      exact List.mem_cons_of_mem x (ih h)

theorem strideSample_length {α : Type} {k : ℕ} (hk : 1 ≤ k) (l : List α) :
    (strideSample l k).length = (l.length + k - 1) / k := by
  simpa using strideAux_length hk l 0

theorem strideSample_getElem {α : Type} {k : ℕ} (hk : 1 ≤ k) (l : List α) (i : ℕ) :
    (strideSample l k)[i]? = l[k * i]? := by
  simpa using strideAux_getElem hk l 0 i

theorem strideSample_mem {α : Type} {k : ℕ} {y : α} {l : List α}
    (h : y ∈ strideSample l k) : y ∈ l :=
  strideAux_mem h

theorem pyStride_coe {α : Type} {k : ℕ} (hk : 1 ≤ k) (l : List α) :
    pyStride l (k : ℤ) = strideSample l k := by
  rw [pyStride, if_pos (by exact_mod_cast hk)]
  simp

theorem geotiff_to_json_eq (r : Raster) {k : ℕ} (hk : 1 ≤ k) :
    geotiff_to_json r (k : ℤ)
      = .ok { heights := (strideSample r.data k).map fun row => strideSample row k
              lats := strideSample r.ys k
              lons := strideSample r.xs k
              minHeight :=
                nanmin (((strideSample r.data k).map fun row => strideSample row k).flatten)
              maxHeight :=
                nanmax (((strideSample r.data k).map fun row => strideSample row k).flatten)
              shape := (((strideSample r.data k).map fun row => strideSample row k).length,
                (((strideSample r.data k).map fun row => strideSample row k).headD []).length) } := by
  rw [geotiff_to_json, if_neg (by exact_mod_cast (by omega : ¬(k = 0)))]
  simp only [pyStride_coe hk]

theorem sample2_getElem (data : List (List (Option ℚ))) {k : ℕ} (hk : 1 ≤ k) (i j : ℕ) :
    (((strideSample data k).map fun row => strideSample row k)[i]?.bind fun row => row[j]?)
      = (data[k * i]?.bind fun row => row[k * j]?) := by
  rw [List.getElem?_map, strideSample_getElem hk]
  cases h : data[k * i]? with
  | none => simp
  | some row => simp [strideSample_getElem hk row j]

theorem nanmin_fold_le (l : List (Option ℚ)) :
    ∀ (acc : Option ℚ) (m : ℚ), l.foldl nanminStep acc = some m →
      (∀ v : ℚ, some v ∈ l → m ≤ v) ∧ (∀ a : ℚ, acc = some a → m ≤ a) := by
  induction l with
  | nil =>
    intro acc m h
    refine ⟨fun v hv => absurd hv (List.not_mem_nil _), fun a ha => ?_⟩
    rw [List.foldl_nil] at h
    rw [ha] at h
    exact le_of_eq (Option.some.inj h).symm
  | cons x xs ih =>
    intro acc m h
    rw [List.foldl_cons] at h
    obtain ⟨h1, h2⟩ := ih (nanminStep acc x) m h
    refine ⟨fun v hv => ?_, fun a ha => ?_⟩
    · rcases List.mem_cons.mp hv with he | hm
      · cases acc with
        | none => exact h2 v (by rw [← he]; rfl)
        | some a =>
          have hle := h2 (min a v) (by rw [← he]; rfl)
          exact le_trans hle (min_le_right a v)
      · exact h1 v hm
    · subst ha
      cases x with
      | none => exact h2 a rfl
      | some v =>
        have hle := h2 (min a v) rfl
        exact le_trans hle (min_le_left a v)

theorem nanmax_fold_ge (l : List (Option ℚ)) :
    ∀ (acc : Option ℚ) (m : ℚ), l.foldl nanmaxStep acc = some m →
      (∀ v : ℚ, some v ∈ l → v ≤ m) ∧ (∀ a : ℚ, acc = some a → a ≤ m) := by
  induction l with
  | nil =>
    intro acc m h
    refine ⟨fun v hv => absurd hv (List.not_mem_nil _), fun a ha => ?_⟩
    rw [List.foldl_nil] at h
    rw [ha] at h
    exact le_of_eq (Option.some.inj h)
  | cons x xs ih =>
    intro acc m h
    rw [List.foldl_cons] at h
    obtain ⟨h1, h2⟩ := ih (nanmaxStep acc x) m h
    refine ⟨fun v hv => ?_, fun a ha => ?_⟩
    · rcases List.mem_cons.mp hv with he | hm
      · cases acc with
        | none => exact h2 v (by rw [← he]; rfl)
        | some a =>
          have hle := h2 (max a v) (by rw [← he]; rfl)
          exact le_trans (le_max_right a v) hle
      · exact h1 v hm
    · subst ha
      cases x with
      | none => exact h2 a rfl
      | some v =>
        have hle := h2 (max a v) rfl
        exact le_trans (le_max_left a v) hle

theorem nanmin_fold_isSome (l : List (Option ℚ)) :
    ∀ acc : Option ℚ, (acc.isSome = true ∨ ∃ v : ℚ, some v ∈ l) →
      (l.foldl nanminStep acc).isSome = true := by
  induction l with
  | nil =>
    intro acc h
    rcases h with h | ⟨v, hv⟩
    · simpa using h
    · exact absurd hv (List.not_mem_nil _)
  | cons x xs ih =>
    intro acc h
    rw [List.foldl_cons]
    rcases h with h | ⟨v, hv⟩
    · refine ih _ (Or.inl ?_)
      cases acc with
      | none => simp at h
      | some a => cases x <;> simp [nanminStep]
    · rcases List.mem_cons.mp hv with he | hm
      · refine ih _ (Or.inl ?_)
        cases acc <;> simp [nanminStep, ← he]
      · exact ih _ (Or.inr ⟨v, hm⟩)

theorem nanmax_fold_isSome (l : List (Option ℚ)) :
    ∀ acc : Option ℚ, (acc.isSome = true ∨ ∃ v : ℚ, some v ∈ l) →
      (l.foldl nanmaxStep acc).isSome = true := by
  induction l with
  | nil =>
    intro acc h
    rcases h with h | ⟨v, hv⟩
    · simpa using h
    · exact absurd hv (List.not_mem_nil _)
  | cons x xs ih =>
    intro acc h
    rw [List.foldl_cons]
    rcases h with h | ⟨v, hv⟩
    · refine ih _ (Or.inl ?_)
      cases acc with
      | none => simp at h
      | some a => cases x <;> simp [nanmaxStep]
    · rcases List.mem_cons.mp hv with he | hm
      · refine ih _ (Or.inl ?_)
        cases acc <;> simp [nanmaxStep, ← he]
      · exact ih _ (Or.inr ⟨v, hm⟩)

theorem sample2_headD_length (data : List (List (Option ℚ))) {k cols : ℕ} (hk : 1 ≤ k)
    (hne : data ≠ []) (hrect : ∀ row ∈ data, row.length = cols) :
    (((strideSample data k).map fun row => strideSample row k).headD []).length
      = (cols + k - 1) / k := by
  obtain ⟨d, ds, he⟩ := List.exists_cons_of_ne_nil hne
  subst he
  have h1 : strideSample (d :: ds) k = d :: strideAux k (k - 1) ds := rfl
  rw [h1, List.map_cons, List.headD_cons, strideSample_length hk,
    hrect d (List.mem_cons_self d ds)]

/-- C3: for every raster and every stride k at least 1, geotiff_to_json keeps
exactly every k-th row and column starting at index 0 (pure decimation, no
averaging), and the reported shape equals (ceil(rows/k), ceil(cols/k)) and
matches the actual dimensions of the decimated heights grid. -/
theorem geotiff_to_json_decimation (r : Raster) (k cols : ℕ) (g : SampledGrid)
    (hk : 1 ≤ k) (hne : r.data ≠ [])
    (hrect : ∀ row ∈ r.data, row.length = cols)
    (hg : geotiff_to_json r (k : ℤ) = .ok g) :
    g.shape = ((r.data.length + k - 1) / k, (cols + k - 1) / k) ∧
    g.shape.1 = g.heights.length ∧
    (∀ row ∈ g.heights, row.length = g.shape.2) ∧
    (∀ i j : ℕ, (g.heights[i]?.bind fun row => row[j]?)
        = (r.data[k * i]?.bind fun row => row[k * j]?)) := by
  rw [geotiff_to_json_eq r hk] at hg
  injection hg with h
  subst h
  dsimp only
  refine ⟨?_, rfl, ?_, fun i j => sample2_getElem r.data hk i j⟩
  · rw [List.length_map, strideSample_length hk, sample2_headD_length r.data hk hne hrect]
  · intro row hrow
    rcases List.mem_map.mp hrow with ⟨r0, hr0, rfl⟩
    rw [strideSample_length hk, hrect r0 (strideSample_mem hr0),
      sample2_headD_length r.data hk hne hrect]

/-- C4: for every raster and stride k at least 1, minHeight and maxHeight are
the nan-aware extrema over the decimated values only, every non-NaN sampled
value lies between them, and NaN cells of the decimated grid are excluded from
the extrema but retained as NaN at their positions in the heights grid. -/
theorem geotiff_to_json_extrema (r : Raster) (k : ℕ) (g : SampledGrid)
    (hk : 1 ≤ k) (hg : geotiff_to_json r (k : ℤ) = .ok g) :
    g.minHeight = nanmin g.heights.flatten ∧
    g.maxHeight = nanmax g.heights.flatten ∧
    (∀ v : ℚ, some v ∈ g.heights.flatten →
      ∃ m M : ℚ, g.minHeight = some m ∧ g.maxHeight = some M ∧ m ≤ v ∧ v ≤ M) ∧
    (∀ i j : ℕ, (r.data[k * i]?.bind fun row => row[k * j]?) = some none →
      (g.heights[i]?.bind fun row => row[j]?) = some none) := by
  rw [geotiff_to_json_eq r hk] at hg
  injection hg with h
  subst h
  dsimp only
  refine ⟨rfl, rfl, ?_, ?_⟩
  · intro v hv
    have hmin := nanmin_fold_isSome _ none (Or.inr ⟨v, hv⟩)
    have hmax := nanmax_fold_isSome _ none (Or.inr ⟨v, hv⟩)
    obtain ⟨m, hm⟩ := Option.isSome_iff_exists.mp hmin
    obtain ⟨M, hM⟩ := Option.isSome_iff_exists.mp hmax
    exact ⟨m, M, hm, hM, (nanmin_fold_le _ none m hm).1 v hv,
      (nanmax_fold_ge _ none M hM).1 v hv⟩
  · intro i j hij
    rw [sample2_getElem r.data hk i j]
    exact hij

/-- C10: the decimated latitude axis has exactly as many entries as the heights
grid has rows, and the decimated longitude axis as many entries as it has
columns, because both axes are decimated with the same stride as the data. -/
theorem geotiff_to_json_axes_consistent (r : Raster) (k cols : ℕ) (g : SampledGrid)
    (hk : 1 ≤ k) (hne : r.data ≠ [])
    (hrect : ∀ row ∈ r.data, row.length = cols)
    (hy : r.ys.length = r.data.length) (hx : r.xs.length = cols)
    (hg : geotiff_to_json r (k : ℤ) = .ok g) :
    g.lats.length = g.shape.1 ∧ g.lons.length = g.shape.2 := by
  rw [geotiff_to_json_eq r hk] at hg
  injection hg with h
  subst h
  dsimp only
  constructor
  · rw [strideSample_length hk, List.length_map, strideSample_length hk, hy]
  · rw [strideSample_length hk, hx, sample2_headD_length r.data hk hne hrect]

/-- C3 witness: the 4 by 4 rasterW at stride 2 yields a 2 by 2 grid taking rows
and columns 0 and 2. -/
theorem geotiff_to_json_decimation_witness :
    gridW.shape = ((rasterW.data.length + 2 - 1) / 2, (4 + 2 - 1) / 2) ∧
    gridW.shape.1 = gridW.heights.length ∧
    (∀ row ∈ gridW.heights, row.length = gridW.shape.2) ∧
    (∀ i j : ℕ, (gridW.heights[i]?.bind fun row => row[j]?)
        = (rasterW.data[2 * i]?.bind fun row => row[2 * j]?)) :=
  geotiff_to_json_decimation rasterW 2 4 gridW (by decide) (by decide) (by decide) (by decide)

/-- C4 witness: extrema of the stride-2 sample of rasterW bound its non-NaN
values and NaN positions are retained. -/
theorem geotiff_to_json_extrema_witness :
    gridW.minHeight = nanmin gridW.heights.flatten ∧
    gridW.maxHeight = nanmax gridW.heights.flatten ∧
    (∀ v : ℚ, some v ∈ gridW.heights.flatten →
      ∃ m M : ℚ, gridW.minHeight = some m ∧ gridW.maxHeight = some M ∧ m ≤ v ∧ v ≤ M) ∧
    (∀ i j : ℕ, (rasterW.data[2 * i]?.bind fun row => row[2 * j]?) = some none →
      (gridW.heights[i]?.bind fun row => row[j]?) = some none) :=
  geotiff_to_json_extrema rasterW 2 gridW (by decide) (by decide)

/-- C10 witness: axis lengths of the stride-2 sample of rasterW match its
shape. -/
theorem geotiff_to_json_axes_consistent_witness :
    gridW.lats.length = gridW.shape.1 ∧ gridW.lons.length = gridW.shape.2 :=
  geotiff_to_json_axes_consistent rasterW 2 4 gridW (by decide) (by decide) (by decide)
    (by decide) (by decide) (by decide)

set_option maxRecDepth 10000 in
/-- C7 counterexample: at stride -1, which is smaller than 1, geotiff_to_json
does not fail with any error: Python slicing silently reverses the rows,
columns and axes, so the claim that the sampler fails for every stride below 1
is false. -/
theorem geotiff_to_json_negative_stride_ce :
    ((-1 : ℤ) < 1) ∧
    geotiff_to_json rasterW (-1)
      = .ok { heights := [[some 16, some 15, some 14, some 13],
                          [some 12, some 11, none, some 9],
                          [some 8, some 7, some 6, some 5],
                          [some 4, some 3, some 2, some 1]],
              lats := [-90, -30, 30, 90],
              lons := [90, 0, -90, -180],
              minHeight := some 1,
              maxHeight := some 16,
              shape := (4, 4) } :=
  ⟨by decide, by decide⟩

/-- C7 amended: geotiff_to_json itself performs no stride validation; the bound
stride at least 1 is enforced only by the pydantic PipelineConfig validation
before any stage runs, while inside the sampler a zero stride raises a generic
slice ValueError and a negative stride silently succeeds with reversed
decimation. -/
theorem stride_validation_location (lmax s : ℤ) (r : Raster) (hs : s < 1) :
    validPipelineConfig lmax s = false ∧
    (s = 0 → geotiff_to_json r s = .error "ValueError: slice step cannot be zero") ∧
    (s < 0 → ∃ g : SampledGrid, geotiff_to_json r s = .ok g) := by
  refine ⟨?_, ?_, ?_⟩
  · unfold validPipelineConfig
    simp only [Bool.and_eq_false_iff, decide_eq_false_iff_not, not_le]
    right
    exact hs
  · intro h0
    subst h0
    rw [geotiff_to_json, if_pos rfl]
  · intro hneg
    rw [geotiff_to_json, if_neg (by omega)]
    exact ⟨_, rfl⟩

/-- C7 witness: at stride -1 the configuration validation rejects the run while
the sampler itself succeeds. -/
theorem stride_validation_location_witness :
    validPipelineConfig 800 (-1) = false ∧
    ((-1 : ℤ) = 0 → geotiff_to_json rasterW (-1)
        = .error "ValueError: slice step cannot be zero") ∧
    ((-1 : ℤ) < 0 → ∃ g : SampledGrid, geotiff_to_json rasterW (-1) = .ok g) :=
  stride_validation_location 800 (-1) rasterW (by decide)

/-- C2 amended: for a native longitude axis that is strictly increasing with
values in the half-open interval [0, 360), the reordered longitude axis is
strictly increasing and every value lies in the half-open interval (-180, 180]:
values strictly above 180 are remapped by subtracting 360, while a native value
of exactly 180 is kept at 180 by the strict comparison of the remap. -/
theorem reorder_longitude_spec (cols : List (ℚ × List ℚ))
    (hsorted : (cols.map Prod.fst).Sorted (· < ·))
    (hdom : ∀ x ∈ cols.map Prod.fst, 0 ≤ x ∧ x < 360) :
    ((reorder_longitude cols).map Prod.fst).Sorted (· < ·) ∧
    ∀ y ∈ (reorder_longitude cols).map Prod.fst, -180 < y ∧ y ≤ 180 := by
  unfold reorder_longitude
  have hpermpairs :
      List.Perm
        ((cols.map fun c => (remapLon c.1, c.2)).insertionSort (fun a b => a.1 ≤ b.1))
        (cols.map fun c => (remapLon c.1, c.2)) :=
    List.perm_insertionSort _ _
  have hpermfst :
      List.Perm
        ((((cols.map fun c => (remapLon c.1, c.2)).insertionSort
          (fun a b => a.1 ≤ b.1)).map Prod.fst))
        ((cols.map fun c => (remapLon c.1, c.2)).map Prod.fst) :=
    hpermpairs.map _
  have hfst : (cols.map fun c => (remapLon c.1, c.2)).map Prod.fst
      = (cols.map Prod.fst).map remapLon := by
    simp [List.map_map, Function.comp]
  have hnd0 : (cols.map Prod.fst).Nodup := hsorted.nodup
  have hinj : ∀ x ∈ cols.map Prod.fst, ∀ y ∈ cols.map Prod.fst,
      remapLon x = remapLon y → x = y := by
    intro x hx y hy hxy
    obtain ⟨hx0, hx360⟩ := hdom x hx
    obtain ⟨hy0, hy360⟩ := hdom y hy
    unfold remapLon at hxy
    split_ifs at hxy <;> linarith
  have hndL : ((cols.map Prod.fst).map remapLon).Nodup := List.Nodup.map_on hinj hnd0
  have hndres :
      ((((cols.map fun c => (remapLon c.1, c.2)).insertionSort
          (fun a b => a.1 ≤ b.1)).map Prod.fst)).Nodup :=
    (hpermfst.nodup_iff).mpr (hfst ▸ hndL)
  have hsle :
      ((cols.map fun c => (remapLon c.1, c.2)).insertionSort
          (fun a b => a.1 ≤ b.1)).Sorted (fun a b => a.1 ≤ b.1) :=
    List.sorted_insertionSort _ _
  have hsle2 :
      (((cols.map fun c => (remapLon c.1, c.2)).insertionSort
          (fun a b => a.1 ≤ b.1)).map Prod.fst).Sorted (· ≤ ·) := by
    rw [List.Sorted, List.pairwise_map]
    exact hsle
  refine ⟨hsle2.lt_of_le hndres, ?_⟩
  intro y hy
  have hy2 := (hpermfst.mem_iff).mp hy
  rw [hfst] at hy2
  rcases List.mem_map.mp hy2 with ⟨x, hx, rfl⟩
  obtain ⟨hx0, hx360⟩ := hdom x hx
  unfold remapLon
  split_ifs with h <;> constructor <;> linarith

/-- C2 counterexample: the native axis [0, 90, 180, 270] is strictly increasing
with values in [0, 360), yet after the remap and re-sort the longitude 180 is
still present, because the remap only moves values strictly above 180; the
claimed bound that every output longitude lies in [-180, 180) is therefore
false. -/
theorem reorder_longitude_boundary_ce :
    (([0, 90, 180, 270] : List ℚ).Sorted (· < ·)) ∧
    (∀ x ∈ ([0, 90, 180, 270] : List ℚ), 0 ≤ x ∧ x < 360) ∧
    (reorder_longitude [(0, []), (90, []), (180, []), (270, [])]).map Prod.fst
      = [-90, 0, 90, 180] ∧
    ¬(∀ y ∈ (reorder_longitude [(0, []), (90, []), (180, []), (270, [])]).map Prod.fst,
        -180 ≤ y ∧ y < 180) := by
  refine ⟨by decide, by decide, ?_, ?_⟩
  · norm_num [reorder_longitude, remapLon, List.insertionSort, List.orderedInsert]
  · intro h
    have h180 := h 180
      (by norm_num [reorder_longitude, remapLon, List.insertionSort, List.orderedInsert])
    exact absurd h180.2 (by norm_num)

/-- C2 witness: the amended specification holds on the native axis
[0, 90, 270], which is mapped to the strictly increasing axis [-90, 0, 90]. -/
theorem reorder_longitude_spec_witness :
    ((reorder_longitude [(0, []), (90, []), (270, [])]).map Prod.fst).Sorted (· < ·) ∧
    ∀ y ∈ (reorder_longitude [(0, []), (90, []), (270, [])]).map Prod.fst,
      -180 < y ∧ y ≤ 180 :=
  reorder_longitude_spec _ (by decide) (by decide)

theorem explodeFC_append (a b : List Feature) :
    explodeFC (a ++ b) = explodeFC a ++ explodeFC b := by
  induction a with
  | nil => rfl
  | cons f fs ih => simp [explodeFC, ih]

theorem clean_append (a b : List Feature) :
    clean_world_geojson (a ++ b) = clean_world_geojson a ++ clean_world_geojson b := by
  unfold clean_world_geojson
  rw [explodeFC_append, List.map_append, explodeFC_append]

theorem clean_cons (f : Feature) (fs : List Feature) :
    clean_world_geojson (f :: fs) = clean_world_geojson [f] ++ clean_world_geojson fs := by
  have h : f :: fs = [f] ++ fs := rfl
  rw [h, clean_append]

theorem clean_single_poly (e : GeoRing) (holes : List GeoRing) (pr : Props) :
    clean_world_geojson [{ geom := .polygon e holes, props := pr }]
      = (e :: holes).map fun c => { geom := Geometry.lineString c, props := pr } := by
  cases holes with
  | nil => rfl
  | cons h hs => simp [clean_world_geojson, explodeFC, explodeGeom, boundary]

theorem clean_mp_cons (q : GeoRing × List GeoRing) (qs : List (GeoRing × List GeoRing))
    (pr : Props) :
    clean_world_geojson [{ geom := .multiPolygon (q :: qs), props := pr }]
      = clean_world_geojson [{ geom := .polygon q.1 q.2, props := pr }]
        ++ clean_world_geojson [{ geom := .multiPolygon qs, props := pr }] := by
  have key : explodeFC [({ geom := .multiPolygon (q :: qs), props := pr } : Feature)]
      = explodeFC [{ geom := .polygon q.1 q.2, props := pr }]
        ++ explodeFC [{ geom := .multiPolygon qs, props := pr }] := by
    simp [explodeFC, explodeGeom]
  unfold clean_world_geojson
  rw [key, List.map_append, explodeFC_append]

theorem clean_single_poly_len_all (e : GeoRing) (holes : List GeoRing) (pr : Props) :
    ((clean_world_geojson [{ geom := .polygon e holes, props := pr }]).all
        fun x => isLineString x.geom) = true ∧
    (clean_world_geojson [{ geom := .polygon e holes, props := pr }]).length
      = holes.length + 1 := by
  rw [clean_single_poly]
  constructor
  · rw [List.all_eq_true]
    intro x hx
    rcases List.mem_map.mp hx with ⟨c, hc, rfl⟩
    rfl
  · rw [List.length_map, List.length_cons]

theorem clean_single_mp_len_all (ps : List (GeoRing × List GeoRing)) (pr : Props) :
    ((clean_world_geojson [{ geom := .multiPolygon ps, props := pr }]).all
        fun x => isLineString x.geom) = true ∧
    (clean_world_geojson [{ geom := .multiPolygon ps, props := pr }]).length
      = (ps.map fun q => q.2.length + 1).sum := by
  induction ps with
  | nil => exact ⟨rfl, rfl⟩
  | cons q qs ih =>
    rw [clean_mp_cons, List.all_append, List.length_append, List.map_cons, List.sum_cons]
    obtain ⟨hp1, hp2⟩ := clean_single_poly_len_all q.1 q.2 pr
    rw [hp1, hp2, ih.1, ih.2]
    exact ⟨rfl, rfl⟩

/-- C1: for every input collection whose geometries are only Polygon or
MultiPolygon, clean_world_geojson produces a collection in which every feature
geometry is a single LineString, and the number of output features equals the
total ring count, one exterior ring plus one ring per hole, summed over all
single polygons obtained by exploding the input. -/
theorem clean_world_geojson_linestrings (fc : List Feature)
    (h : ∀ f ∈ fc, isPolygonal f.geom = true) :
    ((clean_world_geojson fc).all fun f => isLineString f.geom) = true ∧
    (clean_world_geojson fc).length = (fc.map fun f => geomRingCount f.geom).sum := by
  induction fc with
  | nil => exact ⟨rfl, rfl⟩
  | cons f fs ih =>
    rw [clean_cons, List.all_append, List.length_append, List.map_cons, List.sum_cons]
    have hf := h f (List.mem_cons_self f fs)
    obtain ⟨ih1, ih2⟩ := ih fun x hx => h x (List.mem_cons_of_mem f hx)
    have hsingle : ((clean_world_geojson [f]).all fun x => isLineString x.geom) = true ∧
        (clean_world_geojson [f]).length = geomRingCount f.geom := by
      rcases f with ⟨g, pr⟩
      cases g with
      | polygon e holes => simpa [geomRingCount] using clean_single_poly_len_all e holes pr
      | multiPolygon ps => simpa [geomRingCount] using clean_single_mp_len_all ps pr
      | lineString c => simp [isPolygonal] at hf
      | multiLineString ls => simp [isPolygonal] at hf
      | point p => simp [isPolygonal] at hf
      | multiPoint ps => simp [isPolygonal] at hf
      | emptyGC => simp [isPolygonal] at hf
    rw [hsingle.1, hsingle.2, ih1, ih2]
    exact ⟨rfl, rfl⟩

/-- C1 witness: the polygon with one hole decomposes into only LineStrings and
the output count equals its ring count, namely 2. -/
theorem clean_world_geojson_linestrings_witness :
    ((clean_world_geojson holeFC).all fun f => isLineString f.geom) = true ∧
    (clean_world_geojson holeFC).length = (holeFC.map fun f => geomRingCount f.geom).sum :=
  clean_world_geojson_linestrings holeFC (by decide)

theorem boundary_open_segment (a b : Coord) (hab : a ≠ b) :
    boundary (.lineString [a, b]) = .multiPoint [a, b] := by
  simp [boundary, hab]

/-- C5 counterexample: on a malformed input containing a LineString feature the
decomposer neither fails nor produces only LineStrings: the boundary of the
open segment is its endpoint MultiPoint, which the second explosion splits into
two Point features that are passed through silently as an ordinary result, so
the claim that the code asserts the all-LineString invariant and fails with a
GeometryInvariantViolation whenever another geometry type is present in the
result is false. -/
theorem clean_world_geojson_no_assert_ce :
    clean_world_geojson [{ geom := .lineString [(7, 0), (8, 0)], props := [] }]
      = [{ geom := .point (7, 0), props := [] }, { geom := .point (8, 0), props := [] }] ∧
    ((clean_world_geojson [{ geom := .lineString [(7, 0), (8, 0)], props := [] }]).all
        fun f => isLineString f.geom) = false :=
  ⟨by decide, by decide⟩

/-- C5 amended: clean_world_geojson performs no geometry-type assertion before
writing its output: whenever the input contains an open-segment LineString
feature, the output contains its two endpoints as non-LineString Point features
at the corresponding positions and the collection is returned as an ordinary
value, no error of any kind being raised. -/
theorem clean_world_geojson_no_assert (pre post : List Feature) (a b : Coord) (pr : Props)
    (hab : a ≠ b) :
    ({ geom := Geometry.point a, props := pr } : Feature)
        ∈ clean_world_geojson (pre ++ { geom := .lineString [a, b], props := pr } :: post) ∧
    ((clean_world_geojson (pre ++ { geom := .lineString [a, b], props := pr } :: post)).all
        fun f => isLineString f.geom) = false := by
  have hmid : clean_world_geojson (pre ++ { geom := Geometry.lineString [a, b], props := pr } :: post)
      = clean_world_geojson pre ++ ({ geom := Geometry.point a, props := pr } : Feature)
        :: ({ geom := Geometry.point b, props := pr } : Feature)
        :: clean_world_geojson post := by
    rw [show (pre ++ { geom := Geometry.lineString [a, b], props := pr } :: post)
        = pre ++ ([{ geom := Geometry.lineString [a, b], props := pr }] ++ post) from rfl,
      clean_append, clean_append]
    rw [show clean_world_geojson [{ geom := Geometry.lineString [a, b], props := pr }]
        = [({ geom := Geometry.point a, props := pr } : Feature),
           { geom := Geometry.point b, props := pr }] by
      simp [clean_world_geojson, explodeFC, explodeGeom, boundary_open_segment a b hab]]
    rfl
  rw [hmid]
  constructor
  · exact List.mem_append_right _ (List.mem_cons_self _ _)
  · rw [List.all_append]
    simp [isLineString]

/-- C5 witness: the open segment from (7,0) to (8,0) has distinct endpoints and
its decomposition leaves two Point features in the result without an error. -/
theorem clean_world_geojson_no_assert_witness :
    ({ geom := Geometry.point (7, 0), props := [] } : Feature)
        ∈ clean_world_geojson ([] ++ { geom := .lineString [(7, 0), (8, 0)], props := [] } :: []) ∧
    ((clean_world_geojson ([] ++ { geom := .lineString [(7, 0), (8, 0)], props := [] } :: [])).all
        fun f => isLineString f.geom) = false :=
  clean_world_geojson_no_assert [] [] (7, 0) (8, 0) [] (by decide)

/-- C6 counterexample: on the all-LineString collection containing the single
open segment from (0,0) to (1,0), the decomposer applies boundary extraction
again and returns the two endpoint Point features, not the input collection, so
re-running the decomposition on decomposed input is not a no-op. -/
theorem clean_world_geojson_not_idempotent_ce :
    (([{ geom := .lineString [(0,0),(1,0)], props := [] }] : List Feature).all
        fun f => isLineString f.geom) = true ∧
    clean_world_geojson [{ geom := .lineString [(0,0),(1,0)], props := [] }]
      = [{ geom := .point (0,0), props := [] }, { geom := .point (1,0), props := [] }] ∧
    clean_world_geojson [{ geom := .lineString [(0,0),(1,0)], props := [] }]
      ≠ [{ geom := .lineString [(0,0),(1,0)], props := [] }] :=
  ⟨by decide, by decide, by decide⟩

/-- C6 amended: the decomposer is not idempotent on decomposed input: on a
collection whose geometries are all single LineStrings the first explosion is
the identity and boundary extraction is applied once more, so each feature is
replaced by the exploded boundary of its line, two endpoint Points for an open
line, while a closed ring has an empty boundary whose row the explosion drops
from the output, rather than the collection being returned unchanged. -/
theorem clean_world_geojson_on_linestrings (fc : List Feature)
    (h : ∀ f ∈ fc, isLineString f.geom = true) :
    clean_world_geojson fc
      = fc.flatMap fun f => (explodeGeom (boundary f.geom)).map
          fun g => { geom := g, props := f.props } := by
  induction fc with
  | nil => rfl
  | cons f fs ih =>
    rw [clean_cons, List.flatMap_cons, ih fun x hx => h x (List.mem_cons_of_mem f hx)]
    congr 1
    have hf := h f (List.mem_cons_self f fs)
    rcases f with ⟨g, pr⟩
    cases g with
    | lineString c => simp [clean_world_geojson, explodeFC, explodeGeom]
    | polygon e holes => simp [isLineString] at hf
    | multiPolygon ps => simp [isLineString] at hf
    | multiLineString ls => simp [isLineString] at hf
    | point p => simp [isLineString] at hf
    | multiPoint ps => simp [isLineString] at hf
    | emptyGC => simp [isLineString] at hf

/-- C6 witness: re-decomposing a collection of one open segment and one closed
triangular ring replaces the segment by its two endpoint Points and drops the
ring, whose boundary is empty. -/
theorem clean_world_geojson_on_linestrings_witness :
    clean_world_geojson
        [{ geom := .lineString [(0,0),(1,0)], props := [] },
         { geom := .lineString [(5,5),(6,5),(6,6),(5,5)], props := [] }]
      = (([{ geom := .lineString [(0,0),(1,0)], props := [] },
          { geom := .lineString [(5,5),(6,5),(6,6),(5,5)], props := [] }] : List Feature).flatMap
            fun f => (explodeGeom (boundary f.geom)).map
              fun g => { geom := g, props := f.props }) :=
  clean_world_geojson_on_linestrings _ (by decide)

/-- C9: part explosion splits a MultiPolygon feature with parts ps into exactly
ps.length Polygon features, one per constituent polygon, spliced flat into the
positionally indexed output at the place of the parent, and each resulting
feature carries the parent non-geometry properties unchanged. -/
theorem explodeFC_multipolygon (pre post : List Feature)
    (ps : List (GeoRing × List GeoRing)) (pr : Props) :
    explodeFC (pre ++ { geom := .multiPolygon ps, props := pr } :: post)
      = explodeFC pre
        ++ (ps.map fun q => { geom := Geometry.polygon q.1 q.2, props := pr })
        ++ explodeFC post ∧
    (ps.map fun q => ({ geom := Geometry.polygon q.1 q.2, props := pr } : Feature)).length
      = ps.length ∧
    ∀ f ∈ ps.map fun q => ({ geom := Geometry.polygon q.1 q.2, props := pr } : Feature),
      f.props = pr ∧ isPolygonal f.geom = true := by
  refine ⟨?_, List.length_map _ _, ?_⟩
  · rw [show (pre ++ { geom := Geometry.multiPolygon ps, props := pr } :: post)
        = pre ++ ([{ geom := Geometry.multiPolygon ps, props := pr }] ++ post) from rfl,
      explodeFC_append, explodeFC_append]
    simp [explodeFC, explodeGeom, List.map_map, List.append_assoc]
  · intro f hf
    rcases List.mem_map.mp hf with ⟨q, hq, rfl⟩
    exact ⟨rfl, rfl⟩

/-- C8: after every stage run_pipeline checks on the file system that the
output artifact of that stage exists before advancing: a successful run
guarantees, whenever the later stages only add files, that all three artifacts
exist at end of run, any stage error is propagated as the run error, and any
missing artifact aborts the run with a descriptive error without the later
stages being consulted. -/
theorem run_pipeline_contract
    (gen conv clean : List String → Except String (List String))
    (g j b : String) (fs : List String)
    (hconv : ∀ s t, conv s = .ok t → s ⊆ t)
    (hclean : ∀ s t, clean s = .ok t → s ⊆ t) :
    (∀ out, run_pipeline gen conv clean g j b fs = .ok out →
        g ∈ out ∧ j ∈ out ∧ b ∈ out) ∧
    (∀ e, gen fs = .error e →
        run_pipeline gen conv clean g j b fs = .error e) ∧
    (∀ fs1, gen fs = .ok fs1 → g ∉ fs1 →
        ∀ conv2 clean2, run_pipeline gen conv2 clean2 g j b fs
          = .error ("Geoid GeoTIFF not found at " ++ g)) ∧
    (∀ fs1 e, gen fs = .ok fs1 → g ∈ fs1 → conv fs1 = .error e →
        run_pipeline gen conv clean g j b fs = .error e) ∧
    (∀ fs1 fs2, gen fs = .ok fs1 → g ∈ fs1 → conv fs1 = .ok fs2 → j ∉ fs2 →
        ∀ clean2, run_pipeline gen conv clean2 g j b fs
          = .error ("JSON not found at " ++ j)) ∧
    (∀ fs1 fs2 e, gen fs = .ok fs1 → g ∈ fs1 → conv fs1 = .ok fs2 → j ∈ fs2 →
        clean fs2 = .error e →
        run_pipeline gen conv clean g j b fs = .error e) ∧
    (∀ fs1 fs2 fs3, gen fs = .ok fs1 → g ∈ fs1 → conv fs1 = .ok fs2 → j ∈ fs2 →
        clean fs2 = .ok fs3 → b ∉ fs3 →
        run_pipeline gen conv clean g j b fs
          = .error ("World boundaries GeoJSON not found at " ++ b)) := by
  refine ⟨?_, ?_, ?_, ?_, ?_, ?_, ?_⟩
  · intro out hout
    cases hgen : gen fs with
    | error e => simp [run_pipeline, hgen] at hout
    | ok fs1 =>
      by_cases hg : g ∈ fs1
      · cases hconv1 : conv fs1 with
        | error e => simp [run_pipeline, hgen, hg, hconv1] at hout
        | ok fs2 =>
          by_cases hj : j ∈ fs2
          · cases hclean1 : clean fs2 with
            | error e => simp [run_pipeline, hgen, hg, hconv1, hj, hclean1] at hout
            | ok fs3 =>
              by_cases hb : b ∈ fs3
              · have hout2 : fs3 = out := by
                  simpa [run_pipeline, hgen, hg, hconv1, hj, hclean1, hb] using hout
                subst hout2
                exact ⟨hclean _ _ hclean1 (hconv _ _ hconv1 hg), hclean _ _ hclean1 hj, hb⟩
              · simp [run_pipeline, hgen, hg, hconv1, hj, hclean1, hb] at hout
          · simp [run_pipeline, hgen, hg, hconv1, hj] at hout
      · simp [run_pipeline, hgen, hg] at hout
  · intro e hgen
    simp [run_pipeline, hgen]
  · intro fs1 hgen hg conv2 clean2
    simp [run_pipeline, hgen, hg]
  · intro fs1 e hgen hg hconv1
    simp [run_pipeline, hgen, hg, hconv1]
  · intro fs1 fs2 hgen hg hconv1 hj clean2
    simp [run_pipeline, hgen, hg, hconv1, hj]
  · intro fs1 fs2 e hgen hg hconv1 hj hclean1
    simp [run_pipeline, hgen, hg, hconv1, hj, hclean1]
  · intro fs1 fs2 fs3 hgen hg hconv1 hj hclean1 hb
    simp [run_pipeline, hgen, hg, hconv1, hj, hclean1, hb]

/-- C8 witness: with stage effects that each create their artifact, the
contract holds for the concrete run starting from an empty file system. -/
theorem run_pipeline_contract_witness :
    (∀ out, run_pipeline genW convW cleanW "G" "J" "B" [] = .ok out →
        "G" ∈ out ∧ "J" ∈ out ∧ "B" ∈ out) ∧
    (∀ e, genW [] = .error e →
        run_pipeline genW convW cleanW "G" "J" "B" [] = .error e) ∧
    (∀ fs1, genW [] = .ok fs1 → "G" ∉ fs1 →
        ∀ conv2 clean2, run_pipeline genW conv2 clean2 "G" "J" "B" []
          = .error ("Geoid GeoTIFF not found at " ++ "G")) ∧
    (∀ fs1 e, genW [] = .ok fs1 → "G" ∈ fs1 → convW fs1 = .error e →
        run_pipeline genW convW cleanW "G" "J" "B" [] = .error e) ∧
    (∀ fs1 fs2, genW [] = .ok fs1 → "G" ∈ fs1 → convW fs1 = .ok fs2 → "J" ∉ fs2 →
        ∀ clean2, run_pipeline genW convW clean2 "G" "J" "B" []
          = .error ("JSON not found at " ++ "J")) ∧
    (∀ fs1 fs2 e, genW [] = .ok fs1 → "G" ∈ fs1 → convW fs1 = .ok fs2 → "J" ∈ fs2 →
        cleanW fs2 = .error e →
        run_pipeline genW convW cleanW "G" "J" "B" [] = .error e) ∧
    (∀ fs1 fs2 fs3, genW [] = .ok fs1 → "G" ∈ fs1 → convW fs1 = .ok fs2 → "J" ∈ fs2 →
        cleanW fs2 = .ok fs3 → "B" ∉ fs3 →
        run_pipeline genW convW cleanW "G" "J" "B" []
          = .error ("World boundaries GeoJSON not found at " ++ "B")) :=
  run_pipeline_contract genW convW cleanW "G" "J" "B" []
    (fun s t ht => by
      injection ht with h
      subst h
      exact fun x hx => List.mem_cons_of_mem _ hx)
    (fun s t ht => by
      injection ht with h
      subst h
      exact fun x hx => List.mem_cons_of_mem _ hx)
